import Mathlib

/-!
# Verification of the stock-screening / backtesting core

Shallow embedding, in Lean 4, of the composite scorer, the VAO indicator,
the fundamental scorer, the screener filter stage, the strategy exit/entry
rules, the backtest simulation loop and the performance computation of this
repository.  JavaScript numbers are modelled as exact rationals (`ℚ`);
`Math.round` is modelled by `jsRound` (round half toward +infinity, which is
JavaScript's behaviour); dates are abstracted to natural numbers; the
Chinese exit-reason strings are abstracted to the inductive `ExitReason`
(only their identity is ever inspected).  Fallible code returns `Option`.
-/

/-- JavaScript `Math.round`: round half toward +infinity, `⌊x + 1/2⌋`.
`Rat.floor` is used rather than `Int.floor` so that the kernel can evaluate
it on concrete inputs; `jsRound_eq_floor` relates the two. -/
def jsRound (x : ℚ) : ℤ := (x + 1/2).floor

lemma jsRound_eq_floor (x : ℚ) : jsRound x = ⌊x + 1/2⌋ := by
  unfold jsRound
  rw [Rat.floor_def, Rat.floor_def']

/-- `Math.round(x * 100) / 100` — the two-decimal rounding used throughout. -/
def round2 (x : ℚ) : ℚ := (jsRound (x * 100) : ℚ) / 100

/-- Arithmetic mean of a list (0 for the empty list), as in `vao.js`. -/
def average (l : List ℚ) : ℚ := if l = [] then 0 else l.sum / l.length

/-- One trading day for one symbol (`daily_prices` row).  `open` is a Lean
keyword, hence `openPrice`. -/
structure PriceBar where
  date : ℕ
  openPrice : ℚ
  high : ℚ
  low : ℚ
  close : ℚ
  volume : ℚ
deriving DecidableEq, Repr

instance : Inhabited PriceBar := ⟨⟨0, 0, 0, 0, 0, 0⟩⟩

/-! ## Composite scorer (`three-dimensional-screener.js`) -/

inductive Tier
  | TIER1 | TIER2 | TIER3 | EXCLUDED
deriving DecidableEq, Repr

inductive Recommendation
  | BUY | WATCH | AVOID
deriving DecidableEq, Repr

structure CompositeResult where
  totalScore : ℤ
  tier : Tier
  recommendation : Recommendation
deriving DecidableEq, Repr

/-- `calculateCompositeScore`: WEIGHTS 0.40/0.30/0.30, tier thresholds 75/60/45,
dimension floors 60 (TIER1) and 50 (TIER2); recommendation strings 買入/觀察/迴避
are `BUY`/`WATCH`/`AVOID`. -/
def calculateCompositeScore (technicalScore institutionalScore fundamentalScore : ℚ) :
    CompositeResult :=
  let totalScore : ℤ := jsRound (technicalScore * (40/100) + institutionalScore * (30/100)
    + fundamentalScore * (30/100))
  let minDimension := min technicalScore (min institutionalScore fundamentalScore)
  let clamped := min 100 (max 0 totalScore)
  if totalScore ≥ 75 ∧ minDimension ≥ 60 then ⟨clamped, .TIER1, .BUY⟩
  else if totalScore ≥ 60 ∧ minDimension ≥ 50 then ⟨clamped, .TIER2, .WATCH⟩
  else if totalScore ≥ 45 then ⟨clamped, .TIER3, .WATCH⟩
  else ⟨clamped, .EXCLUDED, .AVOID⟩

/-- Tier cascade exactly as the specification words it, for comparison with
`calculateCompositeScore`. -/
def specTier (totalScore : ℤ) (minDimension : ℚ) : Tier :=
  if totalScore ≥ 75 ∧ minDimension ≥ 60 then .TIER1
  else if totalScore ≥ 60 ∧ minDimension ≥ 50 then .TIER2
  else if totalScore ≥ 45 then .TIER3
  else .EXCLUDED

/-- Recommendation mapping as the specification words it. -/
def specRecommendation : Tier → Recommendation
  | .TIER1 => .BUY
  | .TIER2 => .WATCH
  | .TIER3 => .WATCH
  | .EXCLUDED => .AVOID

/-- Evaluation rule for `jsRound` on concrete rationals. -/
lemma jsRound_eq {x : ℚ} (n : ℤ) (h1 : (n : ℚ) ≤ x + 1/2) (h2 : x + 1/2 < n + 1) :
    jsRound x = n := by
  rw [jsRound_eq_floor]
  exact Int.floor_eq_iff.mpr ⟨h1, by exact_mod_cast h2⟩

lemma jsRound_nonneg {x : ℚ} (h : 0 ≤ x) : 0 ≤ jsRound x := by
  rw [jsRound_eq_floor]
  have : (0 : ℚ) ≤ x + 1/2 := by linarith
  exact Int.le_floor.mpr (by exact_mod_cast this)

lemma jsRound_le_100 {x : ℚ} (h : x ≤ 100) : jsRound x ≤ 100 := by
  rw [jsRound_eq_floor]
  have h2 : ⌊x + 1/2⌋ ≤ ⌊(100 : ℚ) + 1/2⌋ := Int.floor_le_floor (by linarith)
  have h3 : ⌊(100 : ℚ) + 1/2⌋ = 100 := by norm_num
  omega

/-- C1.  For dimension scores in `[0,100]`, `calculateCompositeScore` returns
`totalScore = round(0.40·t + 0.30·i + 0.30·f)`, assigns the tier by the ordered
cascade (TIER1 iff total ≥ 75 and min dimension ≥ 60; else TIER2 iff total ≥ 60
and min ≥ 50; else TIER3 iff total ≥ 45; else EXCLUDED), recommends
BUY/WATCH/WATCH/AVOID accordingly; `(80,80,80)` is TIER1/BUY and `(95,90,50)`
is not TIER1 although its weighted average exceeds 75. -/
theorem calculateCompositeScore_spec (t i f : ℚ)
    (ht0 : 0 ≤ t) (ht1 : t ≤ 100) (hi0 : 0 ≤ i) (hi1 : i ≤ 100)
    (hf0 : 0 ≤ f) (hf1 : f ≤ 100) :
    (calculateCompositeScore t i f).totalScore
        = jsRound (t * (40/100) + i * (30/100) + f * (30/100)) ∧
    (calculateCompositeScore t i f).tier
        = specTier (jsRound (t * (40/100) + i * (30/100) + f * (30/100)))
            (min t (min i f)) ∧
    (calculateCompositeScore t i f).recommendation
        = specRecommendation (calculateCompositeScore t i f).tier ∧
    calculateCompositeScore 80 80 80 = ⟨80, .TIER1, .BUY⟩ ∧
    (calculateCompositeScore 95 90 50).tier ≠ Tier.TIER1 ∧
    (75 : ℚ) < 95 * (40/100) + 90 * (30/100) + 50 * (30/100) := by
  have hw0 : 0 ≤ t * (40/100) + i * (30/100) + f * (30/100) := by nlinarith
  have hw1 : t * (40/100) + i * (30/100) + f * (30/100) ≤ 100 := by nlinarith
  have hr0 : 0 ≤ jsRound (t * (40/100) + i * (30/100) + f * (30/100)) :=
    jsRound_nonneg hw0
  have hr1 : jsRound (t * (40/100) + i * (30/100) + f * (30/100)) ≤ 100 :=
    jsRound_le_100 hw1
  have hclamp : min 100 (max 0 (jsRound (t * (40/100) + i * (30/100) + f * (30/100))))
      = jsRound (t * (40/100) + i * (30/100) + f * (30/100)) := by omega
  have e80 : jsRound (80 * (40/100) + 80 * (30/100) + 80 * (30/100) : ℚ) = 80 := by
    rw [show (80 * (40/100) + 80 * (30/100) + 80 * (30/100) : ℚ) = 80 by norm_num]
    exact jsRound_eq 80 (by norm_num) (by norm_num)
  have e95 : jsRound (95 * (40/100) + 90 * (30/100) + 50 * (30/100) : ℚ) = 80 := by
    rw [show (95 * (40/100) + 90 * (30/100) + 50 * (30/100) : ℚ) = 80 by norm_num]
    exact jsRound_eq 80 (by norm_num) (by norm_num)
  refine ⟨?_, ?_, ?_, ?_, ?_, by norm_num⟩
  · simp only [calculateCompositeScore]
    split_ifs <;> simpa using hclamp
  · simp only [calculateCompositeScore, specTier]
    split_ifs <;> rfl
  · simp only [calculateCompositeScore, specRecommendation]
    split_ifs <;> rfl
  · simp only [calculateCompositeScore, e80, min_self]
    norm_num
  · simp only [calculateCompositeScore, e95]
    norm_num
    decide

/-- C1 witness: the theorem applied at `(80, 80, 80)`. -/
theorem calculateCompositeScore_spec_witness :
    (calculateCompositeScore 80 80 80).tier = Tier.TIER1 ∧
    (calculateCompositeScore 80 80 80).recommendation = Recommendation.BUY ∧
    (calculateCompositeScore 95 90 50).tier ≠ Tier.TIER1 := by
  have h := calculateCompositeScore_spec 80 80 80
    (by norm_num) (by norm_num) (by norm_num) (by norm_num) (by norm_num) (by norm_num)
  refine ⟨?_, ?_, h.2.2.2.2.1⟩
  · rw [h.2.2.2.1]
  · rw [h.2.2.2.1]

/-! ## VAO indicator (`src/indicators/vao.js`) -/

inductive Signal
  | STRONG | MODERATE | WEAK
deriving DecidableEq, Repr

structure VAOResult where
  score : ℚ
  signal : Signal
deriving DecidableEq, Repr

/-- The STRONG/MODERATE/WEAK cascade of `calculateVAO`. -/
def vaoSignalOf (score : ℚ) : Signal :=
  if score ≥ 70 then .STRONG else if score ≥ 50 then .MODERATE else .WEAK

/-- `calculateVAO` with the default windows `shortPeriod = 5`,
`longPeriod = 20` (every call site in the repository uses the defaults).
The thrown insufficient-data error is `none`; `totalShares = none` models an
absent shares-outstanding argument (so does `some 0`, which is falsy in the
source's `totalShares && totalShares > 0` test). -/
def calculateVAO (data : List PriceBar) (totalShares : Option ℚ) : Option VAOResult :=
  if data.length < 20 then none
  else
    let today := data.getD 0 default
    let yesterday := data.getD 1 default
    let volumes := data.map (·.volume)
    let avgVolume5 := average (volumes.take 5)
    let avgVolume20 := average (volumes.take 20)
    let priceChange := if yesterday.close > 0
      then ((today.close - yesterday.close) / yesterday.close) * 100 else 0
    let turnoverRate : Option ℚ := match totalShares with
      | some ts => if ts > 0 then some ((today.volume / ts) * 100) else none
      | none => none
    let score :=
      (if avgVolume5 > 0 ∧ today.volume > avgVolume5 * (15/10) then (25 : ℚ) else 0)
      + (if avgVolume20 > 0 ∧ today.volume > avgVolume20 * 2 then 25 else 0)
      + (if priceChange > 3 then 15 else 0)
      + (if priceChange > 5 then 15 else 0)
      + (match turnoverRate with
         | some tr => (if tr > 5 then (10 : ℚ) else 0) + (if tr > 10 then 10 else 0)
         | none => 0)
    some ⟨score, vaoSignalOf score⟩

/-- The VAO score exactly as the specification words it: a sum of independent
additive contributions, with no positivity guards on the average volumes and
the price change written directly as a ratio. -/
def vaoSpecScore (today yesterday : PriceBar) (data : List PriceBar)
    (totalShares : Option ℚ) : ℚ :=
  (if today.volume > average ((data.map (·.volume)).take 5) * (15/10) then 25 else 0)
  + (if today.volume > average ((data.map (·.volume)).take 20) * 2 then 25 else 0)
  + (if ((today.close - yesterday.close) / yesterday.close) * 100 > 3 then 15 else 0)
  + (if ((today.close - yesterday.close) / yesterday.close) * 100 > 5 then 15 else 0)
  + (match totalShares with
     | some ts =>
       if 0 < ts then
         (if (today.volume / ts) * 100 > 5 then 10 else 0)
         + (if (today.volume / ts) * 100 > 10 then 10 else 0)
       else 0
     | none => 0)

/-- With every element of `l` nonnegative and `v ∈ l`, the source's guarded
volume condition `avg > 0 ∧ v > avg·c` collapses to the spec's `v > avg·c`. -/
lemma guarded_avg_cond (l : List ℚ) (v c : ℚ) (hnn : ∀ x ∈ l, 0 ≤ x)
    (hmem : v ∈ l) :
    (average l > 0 ∧ v > average l * c) ↔ v > average l * c := by
  constructor
  · exact fun h => h.2
  · intro h
    refine ⟨?_, h⟩
    have hne : l ≠ [] := List.ne_nil_of_mem hmem
    have hsum : 0 ≤ l.sum := List.sum_nonneg hnn
    have havg : 0 ≤ average l := by
      unfold average
      rw [if_neg hne]
      positivity
    rcases lt_or_eq_of_le havg with h0 | h0
    · exact h0
    · exfalso
      have hsum0 : l.sum = 0 := by
        unfold average at h0
        rw [if_neg hne] at h0
        have hlen : (0 : ℚ) < l.length := by
          have := List.length_pos.mpr hne
          exact_mod_cast this
        field_simp at h0
        linarith [h0]
      have hv : v ≤ l.sum := List.single_le_sum hnn v hmem
      have : average l = 0 := h0.symm
      rw [this, zero_mul] at h
      linarith

/-- C4.  For a most-recent-first series of length ≥ 20 (with the data-model
invariants volume ≥ 0 and close > 0), `calculateVAO` scores by independent
additive contributions exactly as the specification words them, classifies
STRONG iff score ≥ 70, MODERATE iff 50 ≤ score < 70, else WEAK, and fails
with the insufficient-data error on any series shorter than 20 bars. -/
theorem calculateVAO_spec :
    (∀ (data : List PriceBar) (totalShares : Option ℚ),
      data.length < 20 → calculateVAO data totalShares = none) ∧
    (∀ (today yesterday : PriceBar) (rest : List PriceBar) (totalShares : Option ℚ),
      20 ≤ (today :: yesterday :: rest).length →
      (∀ b ∈ today :: yesterday :: rest, 0 ≤ b.volume) →
      0 < yesterday.close →
      calculateVAO (today :: yesterday :: rest) totalShares
        = some ⟨vaoSpecScore today yesterday (today :: yesterday :: rest) totalShares,
            vaoSignalOf
              (vaoSpecScore today yesterday (today :: yesterday :: rest) totalShares)⟩) ∧
    (∀ s : ℚ,
      (vaoSignalOf s = .STRONG ↔ 70 ≤ s) ∧
      (vaoSignalOf s = .MODERATE ↔ 50 ≤ s ∧ s < 70) ∧
      (vaoSignalOf s = .WEAK ↔ s < 50)) := by
  refine ⟨?_, ?_, ?_⟩
  · intro data ts h
    simp [calculateVAO, h]
  · intro today yesterday rest ts hlen hnn hc
    have hnl : ¬ ((today :: yesterday :: rest).length < 20) := by omega
    have hnn5 : ∀ x ∈ (((today :: yesterday :: rest).map (·.volume)).take 5), 0 ≤ x := by
      intro x hx
      have hx2 := List.take_subset 5 _ hx
      obtain ⟨b, hb, rfl⟩ := List.mem_map.mp hx2
      exact hnn b hb
    have hnn20 : ∀ x ∈ (((today :: yesterday :: rest).map (·.volume)).take 20), 0 ≤ x := by
      intro x hx
      have hx2 := List.take_subset 20 _ hx
      obtain ⟨b, hb, rfl⟩ := List.mem_map.mp hx2
      exact hnn b hb
    have hmem5 : today.volume ∈ (((today :: yesterday :: rest).map (·.volume)).take 5) := by
      simp [List.take_succ_cons]
    have hmem20 : today.volume ∈ (((today :: yesterday :: rest).map (·.volume)).take 20) := by
      simp [List.take_succ_cons]
    have g5 := guarded_avg_cond _ today.volume (15/10) hnn5 hmem5
    have g20 := guarded_avg_cond _ today.volume 2 hnn20 hmem20
    have hpc : (if yesterday.close > 0
        then ((today.close - yesterday.close) / yesterday.close) * 100 else 0)
        = ((today.close - yesterday.close) / yesterday.close) * 100 := if_pos hc
    unfold calculateVAO
    rw [if_neg hnl]
    simp only [List.getD_cons_zero, List.getD_cons_succ, hpc, g5, g20]
    unfold vaoSpecScore
    rcases ts with _ | ts
    · rfl
    · by_cases hts : ts > 0 <;> simp [hts]
  · intro s
    unfold vaoSignalOf
    split_ifs with h1 h2
    · refine ⟨⟨fun _ => h1, fun _ => rfl⟩, ⟨fun hh => ?_, fun hh => ?_⟩,
        ⟨fun hh => ?_, fun hh => ?_⟩⟩
      · exact absurd hh (by decide)
      · exact absurd h1 (by linarith [hh.2])
      · exact absurd hh (by decide)
      · exact absurd h1 (by linarith)
    · push_neg at h1
      refine ⟨⟨fun hh => ?_, fun hh => ?_⟩, ⟨fun _ => ⟨h2, h1⟩, fun _ => rfl⟩,
        ⟨fun hh => ?_, fun hh => ?_⟩⟩
      · exact absurd hh (by decide)
      · exact absurd hh (by linarith)
      · exact absurd hh (by decide)
      · exact absurd h2 (by linarith)
    · push_neg at h1 h2
      refine ⟨⟨fun hh => ?_, fun hh => ?_⟩, ⟨fun hh => ?_, fun hh => ?_⟩,
        ⟨fun _ => h2, fun _ => rfl⟩⟩
      · exact absurd hh (by decide)
      · exact absurd hh (by linarith)
      · exact absurd hh (by decide)
      · exact absurd hh.1 (by linarith)

/-- C4 witness: the theorem applied to a concrete 20-bar series (volume spike
100 vs average, +6% day change, no shares outstanding) scoring 80/STRONG, and
to the empty series. -/
theorem calculateVAO_spec_witness :
    calculateVAO [] none = none ∧
    calculateVAO
      (⟨0, 0, 0, 0, 106, 100⟩ :: ⟨0, 0, 0, 0, 100, 10⟩ ::
        List.replicate 18 ⟨0, 0, 0, 0, 100, 10⟩) none
      = some ⟨80, .STRONG⟩ := by
  refine ⟨calculateVAO_spec.1 [] none (by simp), ?_⟩
  have h := calculateVAO_spec.2.1 ⟨0, 0, 0, 0, 106, 100⟩ ⟨0, 0, 0, 0, 100, 10⟩
    (List.replicate 18 ⟨0, 0, 0, 0, 100, 10⟩) none
    (by simp)
    (by
      intro b hb
      simp only [List.mem_cons, List.mem_replicate] at hb
      rcases hb with rfl | rfl | ⟨_, rfl⟩ <;> norm_num)
    (by norm_num)
  rw [h]
  have hs : vaoSpecScore ⟨0, 0, 0, 0, 106, 100⟩ ⟨0, 0, 0, 0, 100, 10⟩
      (⟨0, 0, 0, 0, 106, 100⟩ :: ⟨0, 0, 0, 0, 100, 10⟩ ::
        List.replicate 18 ⟨0, 0, 0, 0, 100, 10⟩) none = 80 := by
    unfold vaoSpecScore average
    norm_num [List.take_succ_cons, List.take_replicate, List.sum_replicate,
      List.map_cons, List.map_replicate, smul_eq_mul]
    norm_num [List.cons_ne_nil]
  rw [hs]
  norm_num [vaoSignalOf]

/-! ## Fundamental scorer (`three-dimensional-screener.js`, `scoreFundamental`) -/

/-- `FundamentalSnapshot`: every field optional (`undefined`/`null` both map
to `none`). -/
structure FundamentalData where
  revenueGrowthMoM : Option ℚ
  revenueGrowthYoY : Option ℚ
  eps : Option ℚ
  epsPrevYear : Option ℚ
  peRatio : Option ℚ
deriving DecidableEq, Repr

/-- YoY revenue-growth sub-score (weight 40%), neutral 50 when absent. -/
def yoySubScore : Option ℚ → ℚ
  | some yoy =>
    if yoy > 30 then 100 else if yoy > 15 then 80 else if yoy > 5 then 65
    else if yoy > 0 then 55 else if yoy > -10 then 35 else 15
  | none => 50

/-- MoM revenue-growth sub-score (weight 15%), neutral 50 when absent. -/
def momSubScore : Option ℚ → ℚ
  | some mom =>
    if mom > 20 then 90 else if mom > 10 then 75 else if mom > 0 then 60
    else if mom > -10 then 40 else 20
  | none => 50

/-- EPS YoY-growth sub-score (weight 30%): needs both EPS figures and a
positive prior-year EPS, neutral 50 otherwise. -/
def epsSubScore : Option ℚ → Option ℚ → ℚ
  | some eps, some epsPrev =>
    if epsPrev > 0 then
      if ((eps - epsPrev) / epsPrev) * 100 > 30 then 100
      else if ((eps - epsPrev) / epsPrev) * 100 > 15 then 80
      else if ((eps - epsPrev) / epsPrev) * 100 > 0 then 65
      else if ((eps - epsPrev) / epsPrev) * 100 > -15 then 35 else 15
    else 50
  | _, _ => 50

/-- P/E reasonableness sub-score (weight 15%): needs a positive P/E, neutral
50 otherwise. -/
def peSubScore : Option ℚ → ℚ
  | some pe =>
    if pe > 0 then
      if pe < 10 then 85 else if pe < 15 then 75 else if pe < 20 then 60
      else if pe < 30 then 45 else 25
    else 50
  | none => 50

/-- `scoreFundamental`: absent snapshot gives the neutral score 50; otherwise
the four sub-scores are combined with weights 0.40/0.15/0.30/0.15, clamped to
`[0,100]` and rounded.  The function is total — the source's `try/catch`
wraps code that cannot throw. -/
def scoreFundamental (fundamentalData : Option FundamentalData) : ℤ :=
  match fundamentalData with
  | none => 50
  | some d =>
    let score := yoySubScore d.revenueGrowthYoY * (40/100)
      + momSubScore d.revenueGrowthMoM * (15/100)
      + epsSubScore d.eps d.epsPrevYear * (30/100)
      + peSubScore d.peRatio * (15/100)
    jsRound (min 100 (max 0 score))

/-- C8.  The fundamental scorer never fails: an absent snapshot scores exactly
the neutral 50, any snapshot scores the 0.40/0.15/0.30/0.15-weighted
combination of its four sub-scores, and every missing sub-input (YoY, MoM,
either EPS figure, P/E) independently defaults to the neutral sub-score 50
before weighting. -/
theorem scoreFundamental_spec :
    scoreFundamental none = 50 ∧
    (∀ d : FundamentalData,
      scoreFundamental (some d)
        = jsRound (min 100 (max 0 (yoySubScore d.revenueGrowthYoY * (40/100)
            + momSubScore d.revenueGrowthMoM * (15/100)
            + epsSubScore d.eps d.epsPrevYear * (30/100)
            + peSubScore d.peRatio * (15/100))))) ∧
    yoySubScore none = 50 ∧
    momSubScore none = 50 ∧
    (∀ p, epsSubScore none p = 50) ∧
    (∀ e, epsSubScore e none = 50) ∧
    peSubScore none = 50 := by
  refine ⟨rfl, fun d => rfl, rfl, rfl, fun p => ?_, fun e => ?_, rfl⟩
  · rfl
  · cases e <;> rfl

/-- C8 witness: a snapshot carrying only YoY growth 20% scores
`round(80·0.40 + 50·0.15 + 50·0.30 + 50·0.15) = 62`; an absent snapshot
scores 50. -/
theorem scoreFundamental_spec_witness :
    scoreFundamental (some ⟨none, some 20, none, none, none⟩) = 62 ∧
    scoreFundamental none = 50 := by
  refine ⟨?_, scoreFundamental_spec.1⟩
  rw [scoreFundamental_spec.2.1 ⟨none, some 20, none, none, none⟩]
  have h : (yoySubScore (some 20) * (40/100) + momSubScore none * (15/100)
      + epsSubScore none none * (30/100) + peSubScore none * (15/100)) = 62 := by
    norm_num [yoySubScore, momSubScore, epsSubScore, peSubScore]
  rw [h]
  rw [show min 100 (max 0 (62:ℚ)) = 62 by norm_num]
  exact jsRound_eq 62 (by norm_num) (by norm_num)

/-! ## Screener FILTER stage (`ThreeDimensionalScreener._applyFilters`) -/

/-- One row of the 5-row `close, volume` query (most recent first). -/
structure PriceRow where
  close : ℚ
  volume : ℚ
deriving DecidableEq, Repr

instance : Inhabited PriceRow := ⟨⟨0, 0⟩⟩

structure FilterConfig where
  minAvgVolume : ℚ
  minPrice : ℚ
deriving DecidableEq, Repr

/-- `FILTER_DEFAULTS`: volume floor 1000 lots, price floor 10. -/
def filterDefaults : FilterConfig := ⟨1000, 10⟩

/-- `_applyFilters`: the database is abstracted by `recent`, which returns
the symbol's price rows most-recent-first; the query's `LIMIT 5` is
`List.take 5`. -/
def applyFilters (symbols : List String) (recent : String → List PriceRow)
    (config : FilterConfig) : List String :=
  symbols.filter fun symbol =>
    if symbol.length ≠ 4 then false
    else
      let r := (recent symbol).take 5
      if r.length < 5 then false
      else
        let avgVolume := (r.map (·.volume)).sum / r.length
        let latestPrice := (r.headD default).close
        decide (avgVolume ≥ config.minAvgVolume ∧ latestPrice ≥ config.minPrice)

/-- The claim's "4-digit equity format": length 4 and every character a
digit.  The source checks only the length. -/
def is4DigitCode (s : String) : Prop :=
  s.length = 4 ∧ ∀ c ∈ s.toList, c.isDigit

/-- C7 (as amended).  A symbol survives the FILTER stage iff its code has
length exactly 4 (digit-ness is not checked), it has at least 5 recent bars,
its 5-day average volume meets the configurable floor and its latest close
meets the configurable price floor; symbols with fewer than 5 bars are
silently dropped, not errors. -/
theorem applyFilters_spec (symbols : List String) (recent : String → List PriceRow)
    (config : FilterConfig) (s : String) :
    s ∈ applyFilters symbols recent config ↔
      s ∈ symbols ∧ s.length = 4 ∧ 5 ≤ (recent s).length ∧
      ((((recent s).take 5).map (·.volume)).sum / (((recent s).take 5).length : ℚ)
          ≥ config.minAvgVolume) ∧
      (((recent s).take 5).headD default).close ≥ config.minPrice := by
  unfold applyFilters
  rw [List.mem_filter]
  constructor
  · rintro ⟨hmem, hp⟩
    refine ⟨hmem, ?_⟩
    by_cases h4 : s.length ≠ 4
    · rw [if_pos h4] at hp; exact absurd hp (by simp)
    · rw [if_neg h4] at hp
      push_neg at h4
      by_cases h5 : ((recent s).take 5).length < 5
      · rw [if_pos h5] at hp; exact absurd hp (by simp)
      · rw [if_neg h5] at hp
        push_neg at h5
        have hlen : 5 ≤ (recent s).length := by
          rw [List.length_take] at h5; omega
        exact ⟨h4, hlen, of_decide_eq_true hp |>.1, of_decide_eq_true hp |>.2⟩
  · rintro ⟨hmem, h4, hlen, havg, hclose⟩
    refine ⟨hmem, ?_⟩
    rw [if_neg (by omega)]
    rw [if_neg (by rw [List.length_take]; omega)]
    exact decide_eq_true ⟨havg, hclose⟩

/-- C7 counterexample: the non-digit four-character code "ABCD" (no digit in
it at all) survives the filter stage, so "matches the 4-digit equity format"
is strictly stronger than what the code checks. -/
theorem applyFilters_counterexample :
    "ABCD" ∈ applyFilters ["ABCD"] (fun _ => List.replicate 5 ⟨100, 2000⟩)
      filterDefaults ∧
    ¬ is4DigitCode "ABCD" := by
  constructor
  · unfold applyFilters
    rw [List.mem_filter]
    refine ⟨by simp, ?_⟩
    simp only []
    rw [if_neg (by decide)]
    rw [if_neg (by simp)]
    simp only [decide_eq_true_eq, List.take_replicate, List.map_replicate,
      List.length_replicate]
    constructor
    · norm_num [List.sum_replicate, smul_eq_mul, filterDefaults]
    · norm_num [filterDefaults, show min 5 5 = 5 from rfl, List.replicate_succ]
  · rintro ⟨_, hdig⟩
    have := hdig 'A' (by decide)
    simp at this

/-! ## Max drawdown (`_calculateMaxDrawdown` in the backtest engine) -/

/-- The loop of `_calculateMaxDrawdown`: carries the running peak, the
largest absolute drawdown so far and its percentage (updated only when the
absolute drawdown grows, as in the source). -/
def mddGo : ℚ → ℚ → ℚ → List ℚ → ℚ × ℚ
  | _, maxDrawdown, maxDrawdownPct, [] => (maxDrawdown, maxDrawdownPct)
  | peak, maxDrawdown, maxDrawdownPct, equity :: rest =>
    if max peak equity - equity > maxDrawdown then
      mddGo (max peak equity) (max peak equity - equity)
        (if max peak equity > 0 then ((max peak equity - equity) / max peak equity) * 100
         else 0) rest
    else
      mddGo (max peak equity) maxDrawdown maxDrawdownPct rest

/-- `_calculateMaxDrawdown`: peak starts at the first element and the loop
runs over the whole curve; the empty curve yields `(0, 0)`. -/
def calculateMaxDrawdown (equityCurve : List ℚ) : ℚ × ℚ :=
  match equityCurve with
  | [] => (0, 0)
  | e0 :: _ => mddGo e0 0 0 equityCurve

/-- Every drop reachable in the loop (from the carried peak or between two
elements) is bounded by the loop's final absolute drawdown. -/
lemma mddGo_ub : ∀ (l : List ℚ) (peak mdd pct : ℚ),
    mdd ≤ (mddGo peak mdd pct l).1 ∧
    (∀ j, j < l.length → peak - l.getD j 0 ≤ (mddGo peak mdd pct l).1) ∧
    (∀ i j, i ≤ j → j < l.length →
      l.getD i 0 - l.getD j 0 ≤ (mddGo peak mdd pct l).1) := by
  intro l
  induction l with
  | nil =>
    intro peak mdd pct
    exact ⟨le_refl _, fun j hj => absurd hj (by simp), fun i j hij hj => absurd hj (by simp)⟩
  | cons e rest ih =>
    intro peak mdd pct
    simp only [mddGo]
    by_cases hdd : max peak e - e > mdd
    · rw [if_pos hdd]
      refine ⟨le_trans (le_of_lt hdd) (ih _ _ _).1, ?_, ?_⟩
      · intro j hj
        cases j with
        | zero =>
          rw [List.getD_cons_zero]
          calc peak - e ≤ max peak e - e := by gcongr; exact le_max_left _ _
            _ ≤ _ := (ih _ _ _).1
        | succ k =>
          rw [List.getD_cons_succ]
          calc peak - rest.getD k 0 ≤ max peak e - rest.getD k 0 := by
                gcongr; exact le_max_left _ _
            _ ≤ _ := (ih _ _ _).2.1 k (by simpa using hj)
      · intro i j hij hj
        cases j with
        | zero =>
          interval_cases i
          rw [List.getD_cons_zero]
          calc e - e ≤ max peak e - e := by gcongr; exact le_max_right _ _
            _ ≤ _ := (ih _ _ _).1
        | succ k =>
          cases i with
          | zero =>
            rw [List.getD_cons_zero, List.getD_cons_succ]
            calc e - rest.getD k 0 ≤ max peak e - rest.getD k 0 := by
                  gcongr; exact le_max_right _ _
              _ ≤ _ := (ih _ _ _).2.1 k (by simpa using hj)
          | succ i' =>
            rw [List.getD_cons_succ, List.getD_cons_succ]
            exact (ih _ _ _).2.2 i' k (by omega) (by simpa using hj)
    · rw [if_neg hdd]
      push_neg at hdd
      refine ⟨(ih _ _ _).1, ?_, ?_⟩
      · intro j hj
        cases j with
        | zero =>
          rw [List.getD_cons_zero]
          calc peak - e ≤ max peak e - e := by gcongr; exact le_max_left _ _
            _ ≤ mdd := hdd
            _ ≤ _ := (ih _ _ _).1
        | succ k =>
          rw [List.getD_cons_succ]
          calc peak - rest.getD k 0 ≤ max peak e - rest.getD k 0 := by
                gcongr; exact le_max_left _ _
            _ ≤ _ := (ih _ _ _).2.1 k (by simpa using hj)
      · intro i j hij hj
        cases j with
        | zero =>
          interval_cases i
          rw [List.getD_cons_zero]
          calc e - e ≤ max peak e - e := by gcongr; exact le_max_right _ _
            _ ≤ mdd := hdd
            _ ≤ _ := (ih _ _ _).1
        | succ k =>
          cases i with
          | zero =>
            rw [List.getD_cons_zero, List.getD_cons_succ]
            calc e - rest.getD k 0 ≤ max peak e - rest.getD k 0 := by
                  gcongr; exact le_max_right _ _
              _ ≤ _ := (ih _ _ _).2.1 k (by simpa using hj)
          | succ i' =>
            rw [List.getD_cons_succ, List.getD_cons_succ]
            exact (ih _ _ _).2.2 i' k (by omega) (by simpa using hj)

/-- The loop's final absolute drawdown is attained: it is the initial
accumulator or an actual drop from the carried peak or between elements. -/
lemma mddGo_attained : ∀ (l : List ℚ) (peak mdd pct : ℚ),
    (mddGo peak mdd pct l).1 = mdd ∨
    (∃ j, j < l.length ∧
      ((mddGo peak mdd pct l).1 = peak - l.getD j 0 ∨
       ∃ i, i ≤ j ∧ (mddGo peak mdd pct l).1 = l.getD i 0 - l.getD j 0)) := by
  intro l
  induction l with
  | nil => intro peak mdd pct; left; rfl
  | cons e rest ih =>
    intro peak mdd pct
    simp only [mddGo]
    by_cases hdd : max peak e - e > mdd
    · rw [if_pos hdd]
      rcases ih (max peak e) (max peak e - e)
          (if max peak e > 0 then ((max peak e - e) / max peak e) * 100 else 0) with
        h | ⟨j, hj, hc⟩
      · right
        refine ⟨0, by simp, ?_⟩
        rcases max_choice peak e with hm | hm
        · left; rw [List.getD_cons_zero, h, hm]
        · right; exact ⟨0, le_refl 0, by rw [List.getD_cons_zero, h, hm]⟩
      · right
        rcases hc with hc | ⟨i, hi, hc⟩
        · rcases max_choice peak e with hm | hm
          · exact ⟨j + 1, by simpa using hj,
              Or.inl (by rw [List.getD_cons_succ, hc, hm])⟩
          · exact ⟨j + 1, by simpa using hj,
              Or.inr ⟨0, by omega, by rw [List.getD_cons_zero, List.getD_cons_succ, hc, hm]⟩⟩
        · exact ⟨j + 1, by simpa using hj,
            Or.inr ⟨i + 1, by omega, by rw [List.getD_cons_succ, List.getD_cons_succ, hc]⟩⟩
    · rw [if_neg hdd]
      rcases ih (max peak e) mdd pct with h | ⟨j, hj, hc⟩
      · left; exact h
      · right
        rcases hc with hc | ⟨i, hi, hc⟩
        · rcases max_choice peak e with hm | hm
          · exact ⟨j + 1, by simpa using hj,
              Or.inl (by rw [List.getD_cons_succ, hc, hm])⟩
          · exact ⟨j + 1, by simpa using hj,
              Or.inr ⟨0, by omega, by rw [List.getD_cons_zero, List.getD_cons_succ, hc, hm]⟩⟩
        · exact ⟨j + 1, by simpa using hj,
            Or.inr ⟨i + 1, by omega, by rw [List.getD_cons_succ, List.getD_cons_succ, hc]⟩⟩

/-- C6.  `_calculateMaxDrawdown` returns the largest peak-to-trough drop of
the equity curve: every drop `curve[i] - curve[j]` with `i ≤ j` is bounded by
the returned absolute drawdown, the returned value is itself such a drop for
any non-empty curve, the empty curve yields `(0, 0)`, and on
`[100,120,110,130,105,140]` the result is `(25, 250/13)` — i.e. drop 25 from
peak 130 to trough 105, percentage `250/13 ≈ 19.23` (exactly `19.23` after
the report's two-decimal rounding). -/
theorem calculateMaxDrawdown_spec :
    (∀ (curve : List ℚ) (i j : ℕ), i ≤ j → j < curve.length →
      curve.getD i 0 - curve.getD j 0 ≤ (calculateMaxDrawdown curve).1) ∧
    (∀ curve : List ℚ, curve ≠ [] →
      ∃ i j, i ≤ j ∧ j < curve.length ∧
        (calculateMaxDrawdown curve).1 = curve.getD i 0 - curve.getD j 0) ∧
    calculateMaxDrawdown ([] : List ℚ) = (0, 0) ∧
    calculateMaxDrawdown [100, 120, 110, 130, 105, 140] = (25, 250/13) ∧
    round2 (250/13) = 1923/100 := by
  refine ⟨?_, fun curve hne => ?_, rfl, ?_, ?_⟩
  · intro curve i j hij hj
    match curve with
    | [] => simp at hj
    | e0 :: tail =>
      exact (mddGo_ub (e0 :: tail) e0 0 0).2.2 i j hij hj
  · match curve with
    | [] => exact absurd rfl hne
    | e0 :: tail =>
      rcases mddGo_attained (e0 :: tail) e0 0 0 with h | ⟨j, hj, hc⟩
      · exact ⟨0, 0, le_refl 0, by simp, by
          show (calculateMaxDrawdown (e0 :: tail)).1 = _
          rw [show calculateMaxDrawdown (e0 :: tail) = mddGo e0 0 0 (e0 :: tail) from rfl,
            h, List.getD_cons_zero]
          ring⟩
      · rcases hc with hc | ⟨i, hi, hc⟩
        · exact ⟨0, j, Nat.zero_le j, hj, by
            rw [show calculateMaxDrawdown (e0 :: tail) = mddGo e0 0 0 (e0 :: tail) from rfl,
              hc, List.getD_cons_zero]⟩
        · exact ⟨i, j, hi, hj, by
            rw [show calculateMaxDrawdown (e0 :: tail) = mddGo e0 0 0 (e0 :: tail) from rfl,
              hc]⟩
  · show mddGo 100 0 0 [100, 120, 110, 130, 105, 140] = (25, 250/13)
    rw [show mddGo 100 0 0 [100, 120, 110, 130, 105, 140]
        = mddGo 100 0 0 [120, 110, 130, 105, 140] by
      simp only [mddGo]; rw [max_self]; norm_num]
    rw [show mddGo 100 0 0 [120, 110, 130, 105, 140]
        = mddGo 120 0 0 [110, 130, 105, 140] by
      simp only [mddGo]
      rw [show max (100:ℚ) 120 = 120 by norm_num]
      norm_num]
    rw [show mddGo 120 0 0 [110, 130, 105, 140]
        = mddGo 120 10 ((10/120) * 100) [130, 105, 140] by
      simp only [mddGo]
      rw [show max (120:ℚ) 110 = 120 by norm_num]
      norm_num]
    rw [show mddGo 120 10 ((10/120) * 100) [130, 105, 140]
        = mddGo 130 10 ((10/120) * 100) [105, 140] by
      simp only [mddGo]
      rw [show max (120:ℚ) 130 = 130 by norm_num]
      norm_num]
    rw [show mddGo 130 10 ((10/120) * 100) [105, 140]
        = mddGo 130 25 ((25/130) * 100) [140] by
      simp only [mddGo]
      rw [show max (130:ℚ) 105 = 130 by norm_num]
      norm_num]
    rw [show mddGo 130 25 ((25/130) * 100) [140]
        = mddGo 140 25 ((25/130) * 100) [] by
      simp only [mddGo]
      rw [show max (130:ℚ) 140 = 140 by norm_num]
      norm_num]
    simp only [mddGo]
    norm_num [Prod.ext_iff]
  · unfold round2
    rw [show (250/13 * 100 : ℚ) = 25000/13 by norm_num]
    rw [jsRound_eq 1923 (by norm_num) (by norm_num)]
    norm_num

/-- C6 witness: the theorem's bound applied to the concrete curve `[100, 90]`
at `i = 0 ≤ j = 1`, together with the concrete examples it contains. -/
theorem calculateMaxDrawdown_spec_witness :
    (100 : ℚ) - 90 ≤ (calculateMaxDrawdown [100, 90]).1 ∧
    calculateMaxDrawdown [100, 120, 110, 130, 105, 140] = (25, 250/13) := by
  constructor
  · have h := calculateMaxDrawdown_spec.1 [100, 90] 0 1 (by omega) (by simp)
    simpa using h
  · exact calculateMaxDrawdown_spec.2.2.2.1

/-! ## Strategy exit rule (`BaseStrategy.shouldExit`) -/

/-- The exit reasons of the backtest engine; the source's formatted strings
(停損/停利/移動停利/回測結束強制平倉) are abstracted to their identity. -/
inductive ExitReason
  | stopLossFired | takeProfitFired | trailingStopFired | forcedEndOfPeriodClose
deriving DecidableEq, Repr

/-- `BaseStrategy` parameters, defaults 0.07 / 0.15 / 0.03 / 0.10. -/
structure StrategyParams where
  stopLoss : ℚ
  takeProfit : ℚ
  trailingStop : ℚ
  trailingActivation : ℚ
deriving DecidableEq, Repr

def defaultStrategyParams : StrategyParams := ⟨7/100, 15/100, 3/100, 10/100⟩

/-- An open backtest position. -/
structure Position where
  entryDate : ℕ
  entryPrice : ℚ
  shares : ℕ
  cost : ℚ
deriving DecidableEq, Repr

/-- `BaseStrategy.shouldExit`: `{exit: false}` is `none`, `{exit: true,
reason}` is `some reason`.  The source's three nested trailing-stop `if`s
with no else-effects are one conjunction. -/
def BaseStrategy.shouldExit (params : StrategyParams) (position : Position)
    (currentBar : PriceBar) (highestSinceEntry : ℚ) : Option ExitReason :=
  if (currentBar.close - position.entryPrice) / position.entryPrice ≤ -params.stopLoss then
    some .stopLossFired
  else if (currentBar.close - position.entryPrice) / position.entryPrice ≥ params.takeProfit then
    some .takeProfitFired
  else if highestSinceEntry > 0 ∧
      (highestSinceEntry - position.entryPrice) / position.entryPrice
        ≥ params.trailingActivation ∧
      (highestSinceEntry - currentBar.close) / highestSinceEntry ≥ params.trailingStop then
    some .trailingStopFired
  else none

/-- The exit rule exactly as the specification words it: fixed stop-loss,
then fixed take-profit, then a trailing stop armed once the high-since-entry
return reaches the activation threshold and triggering on the drawdown from
the high — with no extra positivity guard on the high. -/
def shouldExitSpec (params : StrategyParams) (position : Position)
    (currentBar : PriceBar) (highestSinceEntry : ℚ) : Option ExitReason :=
  if (currentBar.close - position.entryPrice) / position.entryPrice ≤ -params.stopLoss then
    some .stopLossFired
  else if (currentBar.close - position.entryPrice) / position.entryPrice ≥ params.takeProfit then
    some .takeProfitFired
  else if (highestSinceEntry - position.entryPrice) / position.entryPrice
        ≥ params.trailingActivation ∧
      (highestSinceEntry - currentBar.close) / highestSinceEntry ≥ params.trailingStop then
    some .trailingStopFired
  else none

/-- C2.  For every open position (entry price > 0 per the data model) and
nonnegative activation threshold, `BaseStrategy.shouldExit` evaluates the
claim's priority cascade exactly: stop-loss, then take-profit, then the
armed trailing stop, else no exit.  (The source's `highestSinceEntry > 0`
guard is redundant: with a positive entry price, a nonpositive high has a
negative high-since-entry return and the trailing stop cannot be armed.) -/
theorem shouldExit_spec (params : StrategyParams) (position : Position)
    (currentBar : PriceBar) (highestSinceEntry : ℚ)
    (hp : 0 < position.entryPrice) (ha : 0 ≤ params.trailingActivation) :
    BaseStrategy.shouldExit params position currentBar highestSinceEntry
      = shouldExitSpec params position currentBar highestSinceEntry := by
  unfold BaseStrategy.shouldExit shouldExitSpec
  have hiff : (highestSinceEntry > 0 ∧
      (highestSinceEntry - position.entryPrice) / position.entryPrice
        ≥ params.trailingActivation ∧
      (highestSinceEntry - currentBar.close) / highestSinceEntry ≥ params.trailingStop)
      ↔ ((highestSinceEntry - position.entryPrice) / position.entryPrice
        ≥ params.trailingActivation ∧
      (highestSinceEntry - currentBar.close) / highestSinceEntry ≥ params.trailingStop) := by
    constructor
    · exact fun h => h.2
    · intro h
      refine ⟨?_, h⟩
      by_contra hle
      push_neg at hle
      have hneg : (highestSinceEntry - position.entryPrice) / position.entryPrice < 0 :=
        div_neg_of_neg_of_pos (by linarith) hp
      linarith [h.1]
  simp only [hiff]

/-- C2 witness: the theorem applied at entry price 100 with the default
parameters; a bar closing at 90 (return −10% ≤ −7%) exits by stop-loss. -/
theorem shouldExit_spec_witness :
    BaseStrategy.shouldExit defaultStrategyParams ⟨0, 100, 1000, 100000⟩
        ⟨0, 0, 0, 0, 90, 0⟩ 100
      = shouldExitSpec defaultStrategyParams ⟨0, 100, 1000, 100000⟩
        ⟨0, 0, 0, 0, 90, 0⟩ 100 ∧
    BaseStrategy.shouldExit defaultStrategyParams ⟨0, 100, 1000, 100000⟩
        ⟨0, 0, 0, 0, 90, 0⟩ 100 = some .stopLossFired := by
  refine ⟨shouldExit_spec defaultStrategyParams ⟨0, 100, 1000, 100000⟩
    ⟨0, 0, 0, 0, 90, 0⟩ 100 (by norm_num) (by norm_num [defaultStrategyParams]), ?_⟩
  unfold BaseStrategy.shouldExit
  norm_num [defaultStrategyParams]

/-! ## Strategy entry rules (`MACrossStrategy`, `VAOBreakoutStrategy`) -/

/-- `_sma`: mean of the closes in the window `[startIndex, startIndex+period)`
clipped to the series (the source loop's `i < data.length` bound), always
divided by `period`. -/
def sma (data : List PriceBar) (startIndex period : ℕ) : ℚ :=
  (((data.drop startIndex).take period).map (·.close)).sum / period

/-- `_avgVolume`: same window, volumes. -/
def avgVolume (data : List PriceBar) (startIndex period : ℕ) : ℚ :=
  (((data.drop startIndex).take period).map (·.volume)).sum / period

/-- `MACrossStrategy` parameters, defaults `shortPeriod = 10`,
`longPeriod = 20`. -/
structure MACrossParams where
  shortPeriod : ℕ
  longPeriod : ℕ
deriving DecidableEq, Repr

/-- `MACrossStrategy.shouldEntry`: golden cross between the previous and the
current bar; the guard `index + longPeriod + 1 ≥ data.length` returns false. -/
def MACrossStrategy.shouldEntry (p : MACrossParams) (data : List PriceBar)
    (index : ℕ) : Bool :=
  if data.length ≤ index + p.longPeriod + 1 then false
  else
    decide (sma data (index + 1) p.shortPeriod ≤ sma data (index + 1) p.longPeriod
      ∧ sma data index p.longPeriod < sma data index p.shortPeriod)

/-- `VAOBreakoutStrategy` parameters, defaults `volumeMultiple = 1.5`,
`priceChangeMin = 2`. -/
structure VAOBreakoutParams where
  volumeMultiple : ℚ
  priceChangeMin : ℚ
deriving DecidableEq, Repr

/-- `VAOBreakoutStrategy.shouldEntry`: volume above a multiple of the 5-day
average and day change at least the minimum; the guard `index + 20 ≥
data.length` returns false. -/
def VAOBreakoutStrategy.shouldEntry (p : VAOBreakoutParams) (data : List PriceBar)
    (index : ℕ) : Bool :=
  if data.length ≤ index + 20 then false
  else
    let today := data.getD index default
    let yesterday := data.getD (index + 1) default
    let priceChange := if yesterday.close > 0
      then ((today.close - yesterday.close) / yesterday.close) * 100 else 0
    decide (avgVolume data index 5 * p.volumeMultiple < today.volume
      ∧ p.priceChangeMin ≤ priceChange)

/-- C9.  With fewer prior bars than the required lookback window
(`longPeriod + 1` prior bars for the MA-cross strategy, 20 for the
volume-breakout strategy) the entry rule returns false; in this total
embedding no out-of-range access can occur, so no error is raised. -/
theorem shouldEntry_insufficient_lookback :
    (∀ (p : MACrossParams) (data : List PriceBar) (index : ℕ),
      data.length - (index + 1) < p.longPeriod + 1 →
      MACrossStrategy.shouldEntry p data index = false) ∧
    (∀ (p : VAOBreakoutParams) (data : List PriceBar) (index : ℕ),
      data.length - (index + 1) < 20 →
      VAOBreakoutStrategy.shouldEntry p data index = false) := by
  constructor
  · intro p data index h
    unfold MACrossStrategy.shouldEntry
    rw [if_pos (by omega)]
  · intro p data index h
    unfold VAOBreakoutStrategy.shouldEntry
    rw [if_pos (by omega)]

/-- C9 witness: both entry rules applied, with default parameters, to a
3-bar series (shorter than either lookback) at index 0. -/
theorem shouldEntry_insufficient_lookback_witness :
    MACrossStrategy.shouldEntry ⟨10, 20⟩
      [default, default, default] 0 = false ∧
    VAOBreakoutStrategy.shouldEntry ⟨3/2, 2⟩
      [default, default, default] 0 = false := by
  exact ⟨shouldEntry_insufficient_lookback.1 ⟨10, 20⟩ _ 0 (by simp),
    shouldEntry_insufficient_lookback.2 ⟨3/2, 2⟩ _ 0 (by simp)⟩

/-! ## Backtest simulation loop (`BacktestEngine._simulate`) -/

/-- `DEFAULT_CONFIG` of the backtest engine. -/
structure BacktestConfig where
  initialCapital : ℚ
  positionSize : ℚ
  commission : ℚ
  tax : ℚ
  slippage : ℚ
  riskFreeRate : ℚ
deriving DecidableEq, Repr

def DEFAULT_CONFIG : BacktestConfig :=
  ⟨1000000, 1, 1425/1000000, 3/1000, 1/1000, 2/100⟩

/-- A closed (or force-closed) trade record.  The symbol field is omitted
(no claim inspects it); dates are abstract day numbers. -/
structure Trade where
  entryDate : ℕ
  entryPrice : ℚ
  shares : ℕ
  cost : ℚ
  exitDate : Option ℕ
  exitPrice : ℚ
  pnl : ℚ
  returnPct : ℚ
  exitReason : ExitReason
  holdingDays : ℕ
deriving DecidableEq, Repr

/-- `_daysBetween` with dates abstracted to day numbers. -/
def daysBetween (d1 d2 : ℕ) : ℕ := ((d2 : ℤ) - (d1 : ℤ)).natAbs

/-- The strategy interface `_simulate` consumes: an entry predicate over the
reversed (most-recent-first) series and an index, and an exit rule. -/
structure Strategy where
  shouldEntry : List PriceBar → ℕ → Bool
  shouldExit : Position → PriceBar → ℚ → Option ExitReason

/-- `bar.high || bar.close` (JavaScript truthiness: 0 falls back). -/
def barHighOrClose (bar : PriceBar) : ℚ :=
  if bar.high ≠ 0 then bar.high else bar.close

/-- The mutable loop state of `_simulate`. -/
structure SimState where
  capital : ℚ
  position : Option Position
  highestSinceEntry : ℚ
  trades : List Trade
  equityCurve : List ℚ
deriving DecidableEq, Repr

/-- One iteration of the `_simulate` loop on `(bar, reversedIndex)`.  The
source's `continue` on an unaffordable or zero-share entry skips the equity
push, so those branches return the state unchanged. -/
def BacktestEngine.simStep (config : BacktestConfig) (strategy : Strategy)
    (reversedData : List PriceBar) (st : SimState) (pr : PriceBar × ℕ) : SimState :=
  match st.position with
  | some position =>
    let highest := max st.highestSinceEntry (barHighOrClose pr.1)
    match strategy.shouldExit position pr.1 highest with
    | some reason =>
      let exitPrice := pr.1.close * (1 - config.slippage)
      let proceeds := exitPrice * (position.shares : ℚ)
        - exitPrice * (position.shares : ℚ) * config.commission
        - exitPrice * (position.shares : ℚ) * config.tax
      let pnl := proceeds - position.cost
      { capital := st.capital + proceeds
        position := none
        highestSinceEntry := 0
        trades := st.trades ++ [{
          entryDate := position.entryDate
          entryPrice := position.entryPrice
          shares := position.shares
          cost := position.cost
          exitDate := some pr.1.date
          exitPrice := round2 exitPrice
          pnl := ((jsRound pnl : ℤ) : ℚ)
          returnPct := round2 (pnl / position.cost * 100)
          exitReason := reason
          holdingDays := daysBetween position.entryDate pr.1.date }]
        equityCurve := st.equityCurve ++ [((jsRound (st.capital + proceeds) : ℤ) : ℚ)] }
    | none =>
      { st with
        highestSinceEntry := highest
        equityCurve := st.equityCurve
          ++ [((jsRound (st.capital + (position.shares : ℚ) * pr.1.close) : ℤ) : ℚ)] }
  | none =>
    if strategy.shouldEntry reversedData pr.2 then
      let entryPrice := pr.1.close * (1 + config.slippage)
      let shares := ((st.capital * config.positionSize / (entryPrice * 1000)).floor).toNat
        * 1000
      if shares = 0 then st
      else
        let cost := entryPrice * (shares : ℚ) + entryPrice * (shares : ℚ) * config.commission
        if st.capital < cost then st
        else
          { capital := st.capital - cost
            position := some {
              entryDate := pr.1.date
              entryPrice := round2 entryPrice
              shares := shares
              cost := ((jsRound cost : ℤ) : ℚ) }
            highestSinceEntry := barHighOrClose pr.1
            trades := st.trades
            equityCurve := st.equityCurve
              ++ [((jsRound (st.capital - cost + (shares : ℚ) * pr.1.close) : ℤ) : ℚ)] }
    else
      { st with equityCurve := st.equityCurve ++ [((jsRound st.capital : ℤ) : ℚ)] }

def BacktestEngine.simInit (config : BacktestConfig) : SimState :=
  ⟨config.initialCapital, none, 0, [], []⟩

/-- The `(bar, reversedIndex)` pairs the loop visits, chronological order:
`reversedIndex = data.length - 1 - i`. -/
def BacktestEngine.simPairs (data : List PriceBar) : List (PriceBar × ℕ) :=
  data.zip (List.range data.length).reverse

/-- The loop state after the last bar. -/
def BacktestEngine.simLoop (config : BacktestConfig) (strategy : Strategy)
    (data : List PriceBar) : SimState :=
  (BacktestEngine.simPairs data).foldl
    (BacktestEngine.simStep config strategy data.reverse)
    (BacktestEngine.simInit config)

/-- Every loop state, first to last (`List.scanl` of the same step). -/
def BacktestEngine.simStates (config : BacktestConfig) (strategy : Strategy)
    (data : List PriceBar) : List SimState :=
  List.scanl (BacktestEngine.simStep config strategy data.reverse)
    (BacktestEngine.simInit config) (BacktestEngine.simPairs data)

/-- The end-of-data forced close: exit at the last bar's close with no
slippage; commission and tax still apply to the proceeds. -/
def BacktestEngine.forcedCloseTrade (config : BacktestConfig) (position : Position)
    (lastBar : PriceBar) : Trade :=
  let exitPrice := lastBar.close
  let proceeds := exitPrice * (position.shares : ℚ)
    * (1 - config.commission - config.tax)
  let pnl := proceeds - position.cost
  { entryDate := position.entryDate
    entryPrice := position.entryPrice
    shares := position.shares
    cost := position.cost
    exitDate := some lastBar.date
    exitPrice := exitPrice
    pnl := ((jsRound pnl : ℤ) : ℚ)
    returnPct := round2 (pnl / position.cost * 100)
    exitReason := .forcedEndOfPeriodClose
    holdingDays := daysBetween position.entryDate lastBar.date }

/-- `_simulate`: run the loop, then force-close any position still open
(only when the data is non-empty, as in the source). -/
def BacktestEngine.simulate (config : BacktestConfig) (strategy : Strategy)
    (data : List PriceBar) : List Trade × List ℚ :=
  let st := BacktestEngine.simLoop config strategy data
  match st.position, data.getLast? with
  | some position, some lastBar =>
    (st.trades ++ [BacktestEngine.forcedCloseTrade config position lastBar],
      st.equityCurve)
  | _, _ => (st.trades, st.equityCurve)

/-- Evaluation rule for `Rat.floor` on concrete rationals. -/
lemma ratFloor_eq {x : ℚ} (n : ℤ) (h1 : (n : ℚ) ≤ x) (h2 : x < n + 1) :
    x.floor = n := by
  have hif : x.floor = ⌊x⌋ := by rw [Rat.floor_def, Rat.floor_def']
  rw [hif]
  exact Int.floor_eq_iff.mpr ⟨h1, by exact_mod_cast h2⟩

/-- C3.  Whenever the simulation loop ends with a position still open on a
non-empty series, `_simulate` appends exactly one more trade: the forced
end-of-period close, at the last bar's close price (no slippage), carrying
the designated forced exit reason and the last bar's date — the open
position is never silently dropped from the ledger. -/
theorem simulate_forced_close (config : BacktestConfig) (strategy : Strategy)
    (data : List PriceBar) (position : Position) (lastBar : PriceBar)
    (hlast : data.getLast? = some lastBar)
    (hpos : (BacktestEngine.simLoop config strategy data).position = some position) :
    (BacktestEngine.simulate config strategy data).1
      = (BacktestEngine.simLoop config strategy data).trades
        ++ [BacktestEngine.forcedCloseTrade config position lastBar] ∧
    (BacktestEngine.forcedCloseTrade config position lastBar).exitReason
      = ExitReason.forcedEndOfPeriodClose ∧
    (BacktestEngine.forcedCloseTrade config position lastBar).exitPrice
      = lastBar.close ∧
    (BacktestEngine.forcedCloseTrade config position lastBar).exitDate
      = some lastBar.date ∧
    (BacktestEngine.simulate config strategy data).1.length
      = (BacktestEngine.simLoop config strategy data).trades.length + 1 := by
  have h1 : (BacktestEngine.simulate config strategy data).1
      = (BacktestEngine.simLoop config strategy data).trades
        ++ [BacktestEngine.forcedCloseTrade config position lastBar] := by
    unfold BacktestEngine.simulate
    simp only [hpos, hlast]
  exact ⟨h1, rfl, rfl, rfl, by rw [h1]; simp⟩

/-- C3 witness: a one-bar run (close 100, frictionless config) with an
always-enter/never-exit strategy leaves a position open, and the theorem
yields the forced close at the last bar's close 100 with the designated
reason. -/
theorem simulate_forced_close_witness :
    (BacktestEngine.simulate ⟨1000000, 1, 0, 0, 0, 2/100⟩
        ⟨fun _ _ => true, fun _ _ _ => none⟩ [⟨1, 0, 0, 0, 100, 0⟩]).1
      = (BacktestEngine.simLoop ⟨1000000, 1, 0, 0, 0, 2/100⟩
          ⟨fun _ _ => true, fun _ _ _ => none⟩ [⟨1, 0, 0, 0, 100, 0⟩]).trades
        ++ [BacktestEngine.forcedCloseTrade ⟨1000000, 1, 0, 0, 0, 2/100⟩
            ⟨1, 100, 10000, 1000000⟩ ⟨1, 0, 0, 0, 100, 0⟩] ∧
    (BacktestEngine.forcedCloseTrade ⟨1000000, 1, 0, 0, 0, 2/100⟩
        ⟨1, 100, 10000, 1000000⟩ ⟨1, 0, 0, 0, 100, 0⟩).exitReason
      = ExitReason.forcedEndOfPeriodClose ∧
    (BacktestEngine.forcedCloseTrade ⟨1000000, 1, 0, 0, 0, 2/100⟩
        ⟨1, 100, 10000, 1000000⟩ ⟨1, 0, 0, 0, 100, 0⟩).exitPrice = 100 := by
  have hloop : BacktestEngine.simLoop ⟨1000000, 1, 0, 0, 0, 2/100⟩
      ⟨fun _ _ => true, fun _ _ _ => none⟩ [⟨1, 0, 0, 0, 100, 0⟩]
      = ⟨0, some ⟨1, 100, 10000, 1000000⟩, 100, [], [1000000]⟩ := by
    unfold BacktestEngine.simLoop BacktestEngine.simPairs BacktestEngine.simInit
    simp only [List.length_cons, List.length_nil, List.range, List.range.loop,
      List.reverse_cons, List.reverse_nil, List.zip, List.zipWith, List.foldl]
    unfold BacktestEngine.simStep
    simp only []
    norm_num
    have hf : (10 : ℚ).floor = 10 := ratFloor_eq 10 (by norm_num) (by norm_num)
    rw [hf]
    have hr2 : round2 100 = 100 := by
      unfold round2
      rw [show ((100 : ℚ) * 100) = 10000 by norm_num,
        jsRound_eq 10000 (by norm_num) (by norm_num)]
      norm_num
    have hj1 : jsRound (1000000 : ℚ) = 1000000 :=
      jsRound_eq 1000000 (by norm_num) (by norm_num)
    norm_num [hr2, hj1, barHighOrClose]
    rw [show (10 : ℤ).toNat = 10 from rfl]
    norm_num [hj1]
  have h := simulate_forced_close ⟨1000000, 1, 0, 0, 0, 2/100⟩
    ⟨fun _ _ => true, fun _ _ _ => none⟩ [⟨1, 0, 0, 0, 100, 0⟩]
    ⟨1, 100, 10000, 1000000⟩ ⟨1, 0, 0, 0, 100, 0⟩ rfl (by rw [hloop])
  exact ⟨h.1, h.2.1, h.2.2.1⟩

/-- An invariant preserved by a step holds at every state `List.scanl`
produces. -/
lemma scanl_invariant {α β : Type _} (f : α → β → α) (P : α → Prop) :
    ∀ (l : List β) (init : α), P init →
    (∀ a b, b ∈ l → P a → P (f a b)) →
    ∀ s ∈ List.scanl f init l, P s := by
  intro l
  induction l with
  | nil =>
    intro init h0 _ s hs
    simp only [List.scanl_nil, List.mem_singleton] at hs
    rwa [hs]
  | cons b rest ih =>
    intro init h0 hstep s hs
    rw [List.scanl_cons] at hs
    rcases List.mem_cons.mp hs with rfl | hs2
    · exact h0
    · exact ih (f init b) (hstep init b (List.mem_cons_self b rest) h0)
        (fun a bb hbb => hstep a bb (List.mem_cons_of_mem b hbb)) s hs2

/-- One simulation step keeps the cash capital nonnegative, provided the
bar's close is nonnegative, slippage is at most 1, and commission + tax is
at most 1 (exit proceeds are then nonnegative; an entry is guarded by the
affordability check). -/
lemma simStep_capital_nonneg (config : BacktestConfig) (strategy : Strategy)
    (reversedData : List PriceBar) (st : SimState) (pr : PriceBar × ℕ)
    (hclose : 0 ≤ pr.1.close) (hsl : config.slippage ≤ 1)
    (hct : config.commission + config.tax ≤ 1) (hcap : 0 ≤ st.capital) :
    0 ≤ (BacktestEngine.simStep config strategy reversedData st pr).capital := by
  unfold BacktestEngine.simStep
  cases hp : st.position with
  | some position =>
    simp only [hp]
    cases hx : strategy.shouldExit position pr.1
        (max st.highestSinceEntry (barHighOrClose pr.1)) with
    | some reason =>
      have hep : 0 ≤ pr.1.close * (1 - config.slippage) :=
        mul_nonneg hclose (by linarith)
      have hsh : (0 : ℚ) ≤ (position.shares : ℚ) := by positivity
      have h1 : 0 ≤ pr.1.close * (1 - config.slippage) * (position.shares : ℚ) :=
        mul_nonneg hep hsh
      nlinarith [h1, hct, hcap]
    | none => simpa using hcap
  | none =>
    simp only [hp]
    by_cases he : strategy.shouldEntry reversedData pr.2
    · rw [if_pos he]
      split_ifs with h1 h2
      · exact hcap
      · exact hcap
      · push_neg at h2
        linarith
    · rw [if_neg he]
      simpa using hcap

/-- While a position is open, a step either keeps that very position or
closes it — it never opens another one (entry is not evaluated). -/
lemma simStep_position_cases (config : BacktestConfig) (strategy : Strategy)
    (reversedData : List PriceBar) (st : SimState) (pr : PriceBar × ℕ)
    (position : Position) (hp : st.position = some position) :
    (BacktestEngine.simStep config strategy reversedData st pr).position
        = some position
    ∨ (BacktestEngine.simStep config strategy reversedData st pr).position = none := by
  unfold BacktestEngine.simStep
  simp only [hp]
  cases strategy.shouldExit position pr.1
      (max st.highestSinceEntry (barHighOrClose pr.1)) with
  | some reason => right; rfl
  | none => left; rfl

/-- A position is opened from the flat state only when its total cost —
shares at the slippage-adjusted entry price plus the buy-side commission —
is at most the current capital, and the capital decreases by exactly that
cost. -/
lemma simStep_entry_affordable (config : BacktestConfig) (strategy : Strategy)
    (reversedData : List PriceBar) (st : SimState) (pr : PriceBar × ℕ)
    (q : Position) (hp : st.position = none)
    (hq : (BacktestEngine.simStep config strategy reversedData st pr).position
      = some q) :
    ∃ shares : ℕ, 0 < shares ∧
      pr.1.close * (1 + config.slippage) * (shares : ℚ)
        + pr.1.close * (1 + config.slippage) * (shares : ℚ) * config.commission
        ≤ st.capital ∧
      (BacktestEngine.simStep config strategy reversedData st pr).capital
        = st.capital - (pr.1.close * (1 + config.slippage) * (shares : ℚ)
          + pr.1.close * (1 + config.slippage) * (shares : ℚ) * config.commission) := by
  unfold BacktestEngine.simStep at hq ⊢
  simp only [hp] at hq ⊢
  by_cases he : strategy.shouldEntry reversedData pr.2
  · rw [if_pos he] at hq ⊢
    split_ifs at hq ⊢ with h1 h2
    · rw [hp] at hq; exact absurd hq (by simp)
    · rw [hp] at hq; exact absurd hq (by simp)
    · refine ⟨((st.capital * config.positionSize
          / (pr.1.close * (1 + config.slippage) * 1000)).floor).toNat * 1000,
        Nat.pos_of_ne_zero h1, ?_, ?_⟩
      · push_neg at h2; exact h2
      · rfl
  · rw [if_neg he] at hq
    simp at hq

/-- C10.  Throughout every simulation run (under the data-model and config
invariants: nonnegative initial capital and closes, slippage ≤ 1,
commission + tax ≤ 1): the cash capital is nonnegative at every loop state;
while a position is open, a step never opens another one (entry is not
evaluated — at most one position exists at any time); and a position is
opened from the flat state only when its total cost, buy-side commission
included, is at most the current capital, which then decreases by exactly
that cost — otherwise the entry is skipped and the state stays flat. -/
theorem simulate_invariants (config : BacktestConfig) (strategy : Strategy)
    (data : List PriceBar)
    (hcap0 : 0 ≤ config.initialCapital)
    (hsl : config.slippage ≤ 1)
    (hct : config.commission + config.tax ≤ 1)
    (hclose : ∀ b ∈ data, 0 ≤ b.close) :
    (∀ st ∈ BacktestEngine.simStates config strategy data, 0 ≤ st.capital) ∧
    (∀ (st : SimState) (pr : PriceBar × ℕ) (position : Position),
      st.position = some position →
      (BacktestEngine.simStep config strategy data.reverse st pr).position
          = some position
      ∨ (BacktestEngine.simStep config strategy data.reverse st pr).position
          = none) ∧
    (∀ (st : SimState) (pr : PriceBar × ℕ) (q : Position),
      st.position = none →
      (BacktestEngine.simStep config strategy data.reverse st pr).position = some q →
      ∃ shares : ℕ, 0 < shares ∧
        pr.1.close * (1 + config.slippage) * (shares : ℚ)
          + pr.1.close * (1 + config.slippage) * (shares : ℚ) * config.commission
          ≤ st.capital ∧
        (BacktestEngine.simStep config strategy data.reverse st pr).capital
          = st.capital - (pr.1.close * (1 + config.slippage) * (shares : ℚ)
            + pr.1.close * (1 + config.slippage) * (shares : ℚ)
              * config.commission)) := by
  refine ⟨?_, ?_, ?_⟩
  · apply scanl_invariant (BacktestEngine.simStep config strategy data.reverse)
      (fun st => 0 ≤ st.capital) (BacktestEngine.simPairs data)
      (BacktestEngine.simInit config) hcap0
    intro a b hb ha
    have hbd : b.1 ∈ data := by
      unfold BacktestEngine.simPairs at hb
      have := List.of_mem_zip hb
      exact this.1
    exact simStep_capital_nonneg config strategy data.reverse a b
      (hclose b.1 hbd) hsl hct ha
  · intro st pr position hp
    exact simStep_position_cases config strategy data.reverse st pr position hp
  · intro st pr q hp hq
    exact simStep_entry_affordable config strategy data.reverse st pr q hp hq

/-- C10 witness: in the one-bar frictionless run of the C3 witness, both
recorded loop states (initial and after the entry) have nonnegative
capital. -/
theorem simulate_invariants_witness :
    0 ≤ (BacktestEngine.simInit ⟨1000000, 1, 0, 0, 0, 2/100⟩).capital ∧
    0 ≤ (BacktestEngine.simStep ⟨1000000, 1, 0, 0, 0, 2/100⟩
        ⟨fun _ _ => true, fun _ _ _ => none⟩
        ([⟨1, 0, 0, 0, 100, 0⟩] : List PriceBar).reverse
        (BacktestEngine.simInit ⟨1000000, 1, 0, 0, 0, 2/100⟩)
        (⟨1, 0, 0, 0, 100, 0⟩, 0)).capital := by
  have h := (simulate_invariants ⟨1000000, 1, 0, 0, 0, 2/100⟩
    ⟨fun _ _ => true, fun _ _ _ => none⟩ [⟨1, 0, 0, 0, 100, 0⟩]
    (by norm_num) (by norm_num) (by norm_num)
    (by intro b hb; simp only [List.mem_singleton] at hb; subst hb; norm_num)).1
  constructor
  · apply h
    unfold BacktestEngine.simStates BacktestEngine.simPairs
    simp [List.scanl_cons]
  · apply h
    unfold BacktestEngine.simStates BacktestEngine.simPairs
    simp [List.scanl_cons, List.scanl_nil]

/-! ## Performance report (`calculatePerformance`, `_calculateSharpe`,
`_calculateMonthlyReturns`) -/

/-- `trades.filter(t => t.exitDate)`: the closed trades. -/
def completedTrades (trades : List Trade) : List Trade :=
  trades.filter (fun t => t.exitDate.isSome)

/-- Winning trades: realized pnl strictly positive. -/
def winTrades (trades : List Trade) : List Trade :=
  (completedTrades trades).filter (fun t => 0 < t.pnl)

/-- Losing trades: realized pnl nonpositive (the source's `pnl <= 0`). -/
def loseTrades (trades : List Trade) : List Trade :=
  (completedTrades trades).filter (fun t => t.pnl ≤ 0)

def winRateOf (trades : List Trade) : ℚ :=
  ((winTrades trades).length : ℚ) / ((completedTrades trades).length : ℚ)

def avgWinOf (trades : List Trade) : ℚ :=
  if 0 < (winTrades trades).length then
    ((winTrades trades).map (·.returnPct)).sum / ((winTrades trades).length : ℚ)
  else 0

def avgLossOf (trades : List Trade) : ℚ :=
  if 0 < (loseTrades trades).length then
    |((loseTrades trades).map (·.returnPct)).sum / ((loseTrades trades).length : ℚ)|
  else 0

/-- Gross win: summed pnl of the winning trades. -/
def grossWin (trades : List Trade) : ℚ := ((winTrades trades).map (·.pnl)).sum

/-- Gross loss: absolute value of the summed pnl of the losing trades. -/
def grossLoss (trades : List Trade) : ℚ := |((loseTrades trades).map (·.pnl)).sum|

/-- Profit factor before rounding: `none` is JavaScript's `Infinity`
(no loss amount and some win), per `totalLoss > 0 ? totalWin / totalLoss :
totalWin > 0 ? Infinity : 0`. -/
def profitFactorOf (trades : List Trade) : Option ℚ :=
  if 0 < grossLoss trades then some (grossWin trades / grossLoss trades)
  else if 0 < grossWin trades then none
  else some 0

def expectancyOf (trades : List Trade) : ℚ :=
  winRateOf trades * avgWinOf trades - (1 - winRateOf trades) * avgLossOf trades

/-- Daily returns from the equity curve, skipping steps whose previous
equity is not positive (the source's `equityCurve[i-1] > 0` guard). -/
def dailyReturns (equityCurve : List ℚ) : List ℚ :=
  (equityCurve.zip (equityCurve.drop 1)).filterMap
    (fun pq => if pq.1 > 0 then some ((pq.2 - pq.1) / pq.1) else none)

def listMean (l : List ℚ) : ℚ := l.sum / (l.length : ℚ)

def listVariance (l : List ℚ) : ℚ :=
  (l.map (fun r => (r - listMean l) ^ 2)).sum / (l.length : ℚ)

/-- `_calculateSharpe`: annualized Sharpe ratio over equity-curve daily
returns.  `Real.sqrt` forces this definition (and everything downstream of
it) to be noncomputable; that mirrors the only genuinely irrational
arithmetic in the source. -/
noncomputable def calculateSharpe (equityCurve : List ℚ) (riskFreeRate : ℚ) : ℝ :=
  if equityCurve.length < 2 then 0
  else if dailyReturns equityCurve = [] then 0
  else
    if Real.sqrt ((listVariance (dailyReturns equityCurve) : ℚ) : ℝ) = 0 then 0
    else (((listMean (dailyReturns equityCurve) : ℚ) : ℝ) - (riskFreeRate : ℝ) / 252)
      / Real.sqrt ((listVariance (dailyReturns equityCurve) : ℚ) : ℝ) * Real.sqrt 252

/-- Two-decimal rounding on the reals, for the Sharpe field. -/
noncomputable def round2R (x : ℝ) : ℝ := ((⌊x * 100 + 1/2⌋ : ℤ) : ℝ) / 100

structure MonthlyReturn where
  month : ℕ
  pnl : ℚ
  trades : ℕ
  returnPct : ℚ
deriving DecidableEq, Repr

/-- Add one trade's pnl to its month's accumulator (insertion order kept,
like the source's keyed object). -/
def addMonthly : List (ℕ × ℚ × ℕ) → ℕ → ℚ → List (ℕ × ℚ × ℕ)
  | [], month, pnl => [(month, pnl, 1)]
  | e :: rest, month, pnl =>
    if e.1 = month then (e.1, e.2.1 + pnl, e.2.2 + 1) :: rest
    else e :: addMonthly rest month pnl

def monthInsert (e : ℕ × ℚ × ℕ) : List (ℕ × ℚ × ℕ) → List (ℕ × ℚ × ℕ)
  | [] => [e]
  | f :: rest => if e.1 ≤ f.1 then e :: f :: rest else f :: monthInsert e rest

/-- Ascending sort by month (the source's `localeCompare` on `YYYY-MM`). -/
def monthSort : List (ℕ × ℚ × ℕ) → List (ℕ × ℚ × ℕ)
  | [] => []
  | e :: rest => monthInsert e (monthSort rest)

/-- `_calculateMonthlyReturns`: dates are day numbers `YYYYMM·100 + DD`, so
`exitDate.slice(0, 7)` is division by 100; trades without an exit date or
with zero pnl are skipped (`!trade.pnl`). -/
def calculateMonthlyReturns (trades : List Trade) (initialCapital : ℚ) :
    List MonthlyReturn :=
  let m := trades.foldl (fun acc t =>
    match t.exitDate with
    | none => acc
    | some d => if t.pnl = 0 then acc else addMonthly acc (d / 100) t.pnl) []
  (monthSort m).map (fun e => ⟨e.1, e.2.1, e.2.2, round2 (e.2.1 / initialCapital * 100)⟩)

structure PerformanceReport where
  totalReturn : ℚ
  totalReturnPct : ℚ
  maxDrawdown : ℚ
  maxDrawdownPct : ℚ
  winRate : ℚ
  sharpeRatio : ℝ
  totalTrades : ℕ
  winCount : ℕ
  loseCount : ℕ
  avgWin : ℚ
  avgLoss : ℚ
  profitFactor : Option ℚ
  expectancy : ℚ
  monthlyReturns : List MonthlyReturn
  equityCurve : List ℚ

/-- The all-zero report the source returns for an empty completed-trade
list (`profitFactor: 0`, `monthlyReturns: []`, equity curve passed
through). -/
def emptyPerformanceReport (equityCurve : List ℚ) : PerformanceReport :=
  ⟨0, 0, 0, 0, 0, 0, 0, 0, 0, 0, 0, some 0, 0, [], equityCurve⟩

/-- `calculatePerformance`.  `finalEquity` keeps the source's `|| initial`
fallback (also taken when the last equity is 0, JavaScript falsy). -/
noncomputable def calculatePerformance (trades : List Trade) (equityCurve : List ℚ)
    (config : BacktestConfig) : PerformanceReport :=
  if (completedTrades trades).length = 0 then emptyPerformanceReport equityCurve
  else
    let finalEquity := match equityCurve.getLast? with
      | some e => if e = 0 then config.initialCapital else e
      | none => config.initialCapital
    let totalReturn := finalEquity - config.initialCapital
    { totalReturn := ((jsRound totalReturn : ℤ) : ℚ)
      totalReturnPct := round2 (totalReturn / config.initialCapital * 100)
      maxDrawdown := ((jsRound (calculateMaxDrawdown equityCurve).1 : ℤ) : ℚ)
      maxDrawdownPct := round2 (calculateMaxDrawdown equityCurve).2
      winRate := round2 (winRateOf trades * 100)
      sharpeRatio := round2R (calculateSharpe equityCurve config.riskFreeRate)
      totalTrades := (completedTrades trades).length
      winCount := (winTrades trades).length
      loseCount := (loseTrades trades).length
      avgWin := round2 (avgWinOf trades)
      avgLoss := round2 (avgLossOf trades)
      profitFactor := (profitFactorOf trades).map round2
      expectancy := round2 (expectancyOf trades)
      monthlyReturns := calculateMonthlyReturns trades config.initialCapital
      equityCurve := equityCurve }

/-- C5.  A ledger with no closed trades yields the all-zero report
(`totalTrades = 0`, `winRate = 0`, `sharpeRatio = 0`, `profitFactor = 0`)
and, the embedding being total, never an error; for a non-empty ledger the
profit factor is gross win / gross loss (`none`, JavaScript's Infinity,
when there is no loss amount and some win) and the expectancy is
`winRate·avgWin − (1−winRate)·avgLoss` (two-decimal rounded, as reported);
the Sharpe ratio is 0 whenever the standard deviation of the
equity-curve-derived daily returns is 0, and otherwise equals
`(mean − rf/252)/stdev · √252`. -/
theorem calculatePerformance_spec :
    (∀ (trades : List Trade) (equityCurve : List ℚ) (config : BacktestConfig),
      (∀ t ∈ trades, t.exitDate = none) →
      calculatePerformance trades equityCurve config
        = emptyPerformanceReport equityCurve) ∧
    (∀ (trades : List Trade) (equityCurve : List ℚ) (config : BacktestConfig),
      completedTrades trades ≠ [] →
      (0 < grossLoss trades →
        (calculatePerformance trades equityCurve config).profitFactor
          = some (round2 (grossWin trades / grossLoss trades))) ∧
      (grossLoss trades = 0 → 0 < grossWin trades →
        (calculatePerformance trades equityCurve config).profitFactor = none) ∧
      (calculatePerformance trades equityCurve config).expectancy
        = round2 (winRateOf trades * avgWinOf trades
          - (1 - winRateOf trades) * avgLossOf trades)) ∧
    (∀ (equityCurve : List ℚ) (riskFreeRate : ℚ),
      Real.sqrt ((listVariance (dailyReturns equityCurve) : ℚ) : ℝ) = 0 →
      calculateSharpe equityCurve riskFreeRate = 0) ∧
    (∀ (equityCurve : List ℚ) (riskFreeRate : ℚ),
      2 ≤ equityCurve.length → dailyReturns equityCurve ≠ [] →
      Real.sqrt ((listVariance (dailyReturns equityCurve) : ℚ) : ℝ) ≠ 0 →
      calculateSharpe equityCurve riskFreeRate
        = (((listMean (dailyReturns equityCurve) : ℚ) : ℝ) - (riskFreeRate : ℝ) / 252)
          / Real.sqrt ((listVariance (dailyReturns equityCurve) : ℚ) : ℝ)
          * Real.sqrt 252) := by
  refine ⟨?_, ?_, ?_, ?_⟩
  · intro trades equityCurve config h
    have hc : completedTrades trades = [] := by
      apply List.filter_eq_nil_iff.mpr
      intro t ht
      simp [h t ht]
    unfold calculatePerformance
    rw [if_pos (by rw [hc]; rfl)]
  · intro trades equityCurve config hne
    have hlen : ¬ ((completedTrades trades).length = 0) := by
      simpa [List.length_eq_zero] using hne
    refine ⟨?_, ?_, ?_⟩
    · intro hgl
      unfold calculatePerformance
      rw [if_neg hlen]
      show (profitFactorOf trades).map round2 = _
      unfold profitFactorOf
      rw [if_pos hgl]
      rfl
    · intro hgl hgw
      unfold calculatePerformance
      rw [if_neg hlen]
      show (profitFactorOf trades).map round2 = _
      unfold profitFactorOf
      rw [if_neg (by rw [hgl]; exact lt_irrefl 0), if_pos hgw]
      rfl
    · unfold calculatePerformance
      rw [if_neg hlen]
      rfl
  · intro equityCurve riskFreeRate h
    unfold calculateSharpe
    split_ifs with h1 h2
    · rfl
    · rfl
    · rfl
  · intro equityCurve riskFreeRate h1 h2 h3
    unfold calculateSharpe
    rw [if_neg (by omega), if_neg h2, if_neg h3]

/-- C5 witness: the theorem applied to an all-open ledger (all-zero report)
and to the flat equity curve `[100, 100]`, whose daily returns have standard
deviation 0 and Sharpe 0. -/
theorem calculatePerformance_spec_witness :
    calculatePerformance
        [⟨1, 100, 1000, 100000, none, 0, 5, 5, .stopLossFired, 0⟩] [100] DEFAULT_CONFIG
      = emptyPerformanceReport [100] ∧
    calculateSharpe [100, 100] (2/100) = 0 := by
  constructor
  · exact calculatePerformance_spec.1 _ [100] DEFAULT_CONFIG
      (by intro t ht; simp at ht; rw [ht])
  · apply calculatePerformance_spec.2.2.1
    have hdr : dailyReturns [100, 100] = [0] := by
      unfold dailyReturns
      norm_num [List.zip, List.zipWith, List.filterMap]
    rw [hdr]
    have hv : listVariance [0] = 0 := by
      unfold listVariance listMean
      norm_num
    rw [hv]
    norm_num [Real.sqrt_zero]
